import Mathlib

/-!
Shallow embedding of the transition engine in `transition.go` (package
`common`): the `Stater` capability contract, `StateMachine.Do`,
`StateMachine.AvailableTriggers` and the audit logger
`StateMachine.log`, together with theorems checking the specification's
claims about them.

Modelling conventions:
* Go `interface{}` values stored in the trigger table become the
  inductive `GoVal`; a Go type assertion `v.(T)` becomes a partial
  projection returning `Option`, where `none` models the run-time panic.
* The `*gorm.DB` transactional handle becomes the state record `DB α`:
  the entity's persisted row (its state column plus all other
  columns/associations, abstracted as a value of type `α`), the
  append-only audit table, and the outcome the handle will give to the
  next state-update / audit-insert call.
* Hooks receive the handle and the variadic arguments (abstracted as
  `List σ`) and may both mutate the handle's state and return an error,
  exactly like the Go hook signatures
  `func(*gorm.DB, ...interface{}) bool / error`.
* Go `error` values are modelled by their message strings: the engine's
  own errors are built with `errors.New(fmt.Sprintf(...))` and hook /
  persistence errors are returned unchanged, so a `String` captures all
  the caller can observe.
* `Do` returns `Option (Stater × DB × Option String)`: the outer `none`
  is a panic (failed type assertion, or the reflective `ID` field access
  in `log` failing), the inner `Option String` is the returned `error`
  (`none` = `nil`).
-/

/-- One entry of the result of `AvailableTriggers` (Go struct
`AvailableTrigger`). -/
structure AvailableTrigger where
  translatedTrigger : String
  trigger : String
deriving DecidableEq, Repr

/-- One audit record (Go struct `StateMachineLog`; the `gorm.Model`
bookkeeping columns are not modelled). -/
structure StateMachineLog where
  objectId : Nat
  objectStruct : String
  trigger : String
  source : String
  dest : String
  operatorId : Nat
deriving DecidableEq, Repr

/-- The entity's persisted row: the `state` column written by `Do`, and
everything else about the row (other columns, associations), abstracted
as a single value of type `α` that the engine never constructs or
inspects. -/
structure Row (α : Type) where
  state : String
  other : α
deriving DecidableEq, Repr

/-- The transactional handle `*gorm.DB`, as far as the engine observes
it: the entity's row, the audit table, and the error (if any) that the
handle will report for the next state update (`Update("state", dest)`)
and for the next audit insert (`Create`). -/
structure DB (α : Type) where
  row : Row α
  auditLog : List StateMachineLog
  updateError : Option String
  insertError : Option String
deriving DecidableEq, Repr

/-- A value stored in the trigger table (`map[string]interface{}` in
Go). The engine only ever asserts these to `string`, to
`func(*gorm.DB, ...interface{}) bool` (guards) or to
`func(*gorm.DB, ...interface{}) error` (hooks); `intV` stands for any
other dynamic type, on which those assertions panic. -/
inductive GoVal (α σ : Type) where
  | str : String → GoVal α σ
  | intV : Int → GoVal α σ
  | guardFn : (DB α → List σ → Bool) → GoVal α σ
  | hookFn : (DB α → List σ → DB α × Option String) → GoVal α σ

/-- A trigger's configuration map (`map[string]interface{}`), as an
association list; Go map lookup of an absent key yields the nil
interface, modelled by `List.lookup` returning `none`. -/
abbrev Config (α σ : Type) := List (String × GoVal α σ)

/-- The entity seen through the `Stater` interface, together with the
two pieces of reflective information the engine extracts from it: its
struct name (`StructName`) and its `ID` field
(`reflect.ValueOf(..).Elem().FieldByName("ID").Uint()`, which panics
when the entity has no unsigned-integer `ID` field — modelled by
`id = none`). -/
structure Stater (α σ : Type) where
  id : Option Nat
  structName : String
  states : List String
  triggers : List (String × Config α σ)
  state : String

/-- `GetState` of the embedded `Transition`. -/
def Stater.GetState (e : Stater α σ) : String := e.state

/-- `SetState` of the embedded `Transition`. -/
def Stater.SetState (e : Stater α σ) (s : String) : Stater α σ :=
  { e with state := s }

/-- Go `strings.Split(s, ",")`, worker: walk the characters, cutting at
every comma. -/
def splitCommaAux : List Char → List Char → List String
  | [], acc => [String.mk acc.reverse]
  | c :: cs, acc =>
      if c = ',' then String.mk acc.reverse :: splitCommaAux cs []
      else splitCommaAux cs (c :: acc)

/-- Go `strings.Split(s, ",")`: the pieces of `s` between commas, in
order; one more piece than there are commas, so never empty, and
`splitComma "" = [""]`. -/
def splitComma (s : String) : List String :=
  splitCommaAux s.toList []

/-- The type assertion `v.(string)` applied to a trigger-table lookup:
panics (`none`) when the key was absent (nil interface) or held a
non-string. -/
def assertString : Option (GoVal α σ) → Option String
  | some (.str s) => some s
  | _ => none

/-- Evaluation of the `condition` entry in `Do`: absent means proceed;
present means assert `func(*gorm.DB, ...interface{}) bool` (panicking
on any other type) and call it. -/
def evalCondition (v : Option (GoVal α σ)) (tx : DB α) (args : List σ) :
    Option Bool :=
  match v with
  | none => some true
  | some (.guardFn g) => some (g tx args)
  | some _ => none

/-- Execution of a `before` / `after` entry in `Do`: absent means
succeed with the handle unchanged; present means assert
`func(*gorm.DB, ...interface{}) error` (panicking on any other type)
and call it, yielding the mutated handle and the returned error. -/
def runHook (v : Option (GoVal α σ)) (tx : DB α) (args : List σ) :
    Option (DB α × Option String) :=
  match v with
  | none => some (tx, none)
  | some (.hookFn f) => some (f tx args)
  | some _ => none

/-- The persistence step
`tx.Model(sm.stater).Omit(clause.Associations).Update("state", dest)`:
on success it writes the single `state` column of the entity's row; on
failure it reports the handle's error and changes nothing. -/
def updateStateField (tx : DB α) (dest : String) : DB α × Option String :=
  match tx.updateError with
  | some e => (tx, some e)
  | none => ({ tx with row := { tx.row with state := dest } }, none)

namespace StateMachine

/-- `StateMachine.log`: insert one `StateMachineLog` row through the
handle. Reading the entity's `ID` field is reflective and panics
(`none`) when the field is missing or not an unsigned integer. -/
def log (e : Stater α σ) (tx : DB α) (trigger source dest : String)
    (userInfoId : Nat) : Option (DB α × Option String) :=
  match e.id with
  | none => none
  | some oid =>
      match tx.insertError with
      | some err => some (tx, some err)
      | none =>
          some ({ tx with auditLog := tx.auditLog ++
                    [⟨oid, e.structName, trigger, source, dest, userInfoId⟩] },
                none)

/-- `StateMachine.AvailableTriggers`, worker over the trigger-table
entries in iteration order: for each entry, assert its `source` to a
string (panic on failure), split it on commas, and emit one
`AvailableTrigger` per piece equal to the current state. -/
def availableTriggersAux (structName state : String) (tr : String → String) :
    List (String × Config α σ) → Option (List AvailableTrigger)
  | [] => some []
  | (trigger, cfg) :: rest =>
      match assertString (cfg.lookup "source") with
      | none => none
      | some source =>
          match availableTriggersAux structName state tr rest with
          | none => none
          | some tl =>
              some ((((splitComma source).filter (fun src => src == state)).map
                (fun _ => ⟨tr (structName ++ ":" ++ trigger), trigger⟩)) ++ tl)

/-- `StateMachine.AvailableTriggers`: the triggers firable from the
current state, each labelled through the translation function
(`Lang.Sprintf`) at key `"<StructName>:<trigger>"`. The entries of the
Go map are supplied as a list in one of the map's possible iteration
orders. -/
def AvailableTriggers (tr : String → String) (e : Stater α σ) :
    Option (List AvailableTrigger) :=
  availableTriggersAux e.structName e.GetState tr e.triggers

/-- `StateMachine.Do`, step for step:
lookup the trigger (unknown → error), assert `source` and `dest` to
strings, scan the comma-split source list for the current state — the
scan does not stop at a match, so `src` is left holding the *last*
piece — reject when no piece matched, evaluate the guard (false →
silent nil return), run the before-hook (error → return it), set the
in-memory state to `dest`, persist the state column (error → return
it), run the after-hook (error → return it), and append the audit
record with `src` as its source. -/
def Do (e : Stater α σ) (tx : DB α) (trigger : String) (userInfoId : Nat)
    (args : List σ) : Option (Stater α σ × DB α × Option String) :=
  match e.triggers.lookup trigger with
  | none => some (e, tx, some ("can not do trigger: " ++ trigger))
  | some cfg =>
      match assertString (cfg.lookup "source") with
      | none => none
      | some source =>
          match assertString (cfg.lookup "dest") with
          | none => none
          | some dest =>
              let currentState := e.GetState
              let parts := splitComma source
              let canDo := parts.contains currentState
              let src := parts.getLastD ""
              if !canDo then
                some (e, tx, some ("can not do trigger: " ++ trigger ++
                  ", current state: " ++ currentState))
              else
                match evalCondition (cfg.lookup "condition") tx args with
                | none => none
                | some false => some (e, tx, none)
                | some true =>
                    match runHook (cfg.lookup "before") tx args with
                    | none => none
                    | some (tx1, some err) => some (e, tx1, some err)
                    | some (tx1, none) =>
                        let e1 := e.SetState dest
                        match updateStateField tx1 dest with
                        | (tx2, some err) => some (e1, tx2, some err)
                        | (tx2, none) =>
                            match runHook (cfg.lookup "after") tx2 args with
                            | none => none
                            | some (tx3, some err) => some (e1, tx3, some err)
                            | some (tx3, none) =>
                                match log e1 tx3 trigger src dest userInfoId with
                                | none => none
                                | some (tx4, r) => some (e1, tx4, r)

end StateMachine

/-- The well-typedness precondition on one trigger configuration under
which every type assertion `Do` performs on it succeeds: `source` and
`dest` are strings, and `condition` / `before` / `after`, when present,
are guard / hook functions of the asserted signatures. -/
def WellTypedConfig {α σ : Type} (cfg : Config α σ) : Prop :=
  (∃ s, cfg.lookup "source" = some (GoVal.str s)) ∧
  (∃ d, cfg.lookup "dest" = some (GoVal.str d)) ∧
  (∀ v, cfg.lookup "condition" = some v → ∃ g, v = GoVal.guardFn g) ∧
  (∀ v, cfg.lookup "before" = some v → ∃ f, v = GoVal.hookFn f) ∧
  (∀ v, cfg.lookup "after" = some v → ∃ f, v = GoVal.hookFn f)

/-- The string held by a configuration's `source` entry (defaulting to
`""` when the entry is absent or not a string; only used under a
hypothesis excluding that case). -/
def configSource {α σ : Type} (cfg : Config α σ) : String :=
  match cfg.lookup "source" with
  | some (GoVal.str s) => s
  | _ => ""

/-! Concrete entities, trigger tables and handles used as inputs of the
witness and counterexample theorems. -/

/-- A trigger declared for two source states: `source = "A,B"`,
`dest = "C"`, no guard and no hooks. -/
def cfgGoC1 : Config Unit Unit :=
  [("source", GoVal.str "A,B"), ("dest", GoVal.str "C")]

/-- An `Order` entity in state `"A"` with the single trigger `go`. -/
def orderC1 : Stater Unit Unit :=
  { id := some 1, structName := "Order", states := ["A", "B", "C"],
    triggers := [("go", cfgGoC1)], state := "A" }

/-- A fresh handle for `orderC1`: row in state `"A"`, empty audit
table, update and insert both succeed. -/
def dbC1 : DB Unit :=
  { row := { state := "A", other := () }, auditLog := [],
    updateError := none, insertError := none }

/-- The handle after a successful `Do(go)` on `orderC1`: row persisted
to `"C"` and one audit record (whose source column holds `"B"`). -/
def dbC1done : DB Unit :=
  { row := { state := "C", other := () },
    auditLog := [⟨1, "Order", "go", "B", "C", 7⟩],
    updateError := none, insertError := none }

/-- `orderC1` moved to a state outside the `go` trigger's sources. -/
def orderAtZ : Stater Unit Unit := { orderC1 with state := "Z" }

/-- A plain well-typed single-source trigger: `"A" → "B"`, no guard,
no hooks. -/
def cfgPlain : Config Unit Unit :=
  [("source", GoVal.str "A"), ("dest", GoVal.str "B")]

/-- Entity with triggers `t1`, `t2` listed in that iteration order. -/
def twoTrigA : Stater Unit Unit :=
  { id := some 1, structName := "T", states := ["A", "B"],
    triggers := [("t1", cfgPlain), ("t2", cfgPlain)], state := "A" }

/-- The same trigger map as `twoTrigA` in the opposite iteration order
(Go map iteration order is unspecified, so both lists model the same
entity). -/
def twoTrigB : Stater Unit Unit :=
  { twoTrigA with triggers := [("t2", cfgPlain), ("t1", cfgPlain)] }

/-- A trigger whose comma-split source list repeats `"A"`. -/
def cfgDup : Config Unit Unit :=
  [("source", GoVal.str "A,A"), ("dest", GoVal.str "B")]

/-- Entity whose single trigger lists its current state twice among the
sources. -/
def dupTrig : Stater Unit Unit :=
  { id := some 1, structName := "T", states := ["A", "B"],
    triggers := [("t1", cfgDup)], state := "A" }

/-- A fresh handle with the row in state `"A"`. -/
def dbPlain : DB Unit :=
  { row := { state := "A", other := () }, auditLog := [],
    updateError := none, insertError := none }

/-- The handle `dbPlain` after the state column is persisted to
`"B"`. -/
def dbPlainB : DB Unit :=
  { row := { state := "B", other := () }, auditLog := [],
    updateError := none, insertError := none }

/-- A trigger whose guard returns `false`, carrying a before-hook that
would fail if it were ever invoked. -/
def cfgGuardFalse : Config Unit Unit :=
  [("source", GoVal.str "A"), ("dest", GoVal.str "B"),
   ("condition", GoVal.guardFn (fun _ _ => false)),
   ("before", GoVal.hookFn (fun db _ => (db, some "must not run")))]

/-- Entity whose `go` trigger is rejected by its guard. -/
def guardFalseEnt : Stater Unit Unit :=
  { id := some 1, structName := "T", states := ["A", "B"],
    triggers := [("go", cfgGuardFalse)], state := "A" }

/-- A trigger whose after-hook fails with the error `"boom"`. -/
def cfgAfterBoom : Config Unit Unit :=
  [("source", GoVal.str "A"), ("dest", GoVal.str "B"),
   ("after", GoVal.hookFn (fun db _ => (db, some "boom")))]

/-- Entity whose `go` trigger fails in the after phase with `"boom"`. -/
def afterBoomEnt : Stater Unit Unit :=
  { id := some 2, structName := "T", states := ["A", "B"],
    triggers := [("go", cfgAfterBoom)], state := "A" }

/-- A trigger whose before-hook fails with the same error `"boom"`. -/
def cfgBeforeBoom : Config Unit Unit :=
  [("source", GoVal.str "A"), ("dest", GoVal.str "B"),
   ("before", GoVal.hookFn (fun db _ => (db, some "boom")))]

/-- Entity whose `go` trigger fails in the before phase with
`"boom"`. -/
def beforeBoomEnt : Stater Unit Unit :=
  { id := some 2, structName := "T", states := ["A", "B"],
    triggers := [("go", cfgBeforeBoom)], state := "A" }

/-- A trigger whose before-hook fails with the error `"oops"`. -/
def cfgBeforeOops : Config Unit Unit :=
  [("source", GoVal.str "A"), ("dest", GoVal.str "B"),
   ("before", GoVal.hookFn (fun db _ => (db, some "oops")))]

/-- Entity whose `go` trigger fails in the before phase with
`"oops"`. -/
def beforeOopsEnt : Stater Unit Unit :=
  { id := some 3, structName := "T", states := ["A", "B"],
    triggers := [("go", cfgBeforeOops)], state := "A" }

/-- A trigger whose after-hook fails with the same error `"oops"`. -/
def cfgAfterOops : Config Unit Unit :=
  [("source", GoVal.str "A"), ("dest", GoVal.str "B"),
   ("after", GoVal.hookFn (fun db _ => (db, some "oops")))]

/-- Entity whose `go` trigger fails in the after phase with
`"oops"`. -/
def afterOopsEnt : Stater Unit Unit :=
  { id := some 3, structName := "T", states := ["A", "B"],
    triggers := [("go", cfgAfterOops)], state := "A" }

/-- Entity with the plain `"A" → "B"` trigger. -/
def plainEnt : Stater Unit Unit :=
  { id := some 4, structName := "T", states := ["A", "B"],
    triggers := [("go", cfgPlain)], state := "A" }

/-- A handle whose next state update fails. -/
def dbUpdFail : DB Unit :=
  { row := { state := "A", other := () }, auditLog := [],
    updateError := some "db update failed", insertError := none }

/-- A trigger whose `source` entry holds an int, so the assertion
`config["source"].(string)` panics. -/
def cfgIllTyped : Config Unit Unit :=
  [("source", GoVal.intV 3), ("dest", GoVal.str "B")]

/-- Entity carrying the ill-typed trigger configuration. -/
def illTypedEnt : Stater Unit Unit :=
  { id := some 1, structName := "T", states := ["A", "B"],
    triggers := [("go", cfgIllTyped)], state := "A" }

/-- A well-typed entity without an unsigned-integer `ID` field, on
which the reflective field access in `log` panics. -/
def noIdEnt : Stater Unit Unit :=
  { id := none, structName := "T", states := ["A", "B"],
    triggers := [("go", cfgPlain)], state := "A" }

/-! Helper lemmas shared by the claim theorems. -/

/-- A successful `v.(string)` assertion pins the asserted value down to
a string. -/
theorem assertString_eq_some {α σ : Type} {o : Option (GoVal α σ)} {s : String}
    (h : assertString o = some s) : o = some (GoVal.str s) := by
  cases o with
  | none => simp [assertString] at h
  | some v => cases v <;> simp_all [assertString]

/-- A successful lookup in a one-entry table returns that entry's
value. -/
theorem lookup_singleton_eq {β : Type} {a k : String} {b c : β}
    (h : List.lookup a [(k, b)] = some c) : c = b := by
  simp only [List.lookup] at h
  cases hak : a == k with
  | true => rw [hak] at h; exact (Option.some.injEq _ _ ▸ h).symm
  | false => rw [hak] at h; exact Option.noConfusion h

/-- Case analysis of `Do`: whenever it returns (does not panic), the
entity it hands back is either unchanged or is the input entity with
its state set to the looked-up trigger's `dest` string. -/
theorem do_result_entity {α σ : Type} (e : Stater α σ) (tx : DB α)
    (trigger : String) (uid : Nat) (args : List σ) (e' : Stater α σ)
    (tx' : DB α) (r : Option String)
    (h : StateMachine.Do e tx trigger uid args = some (e', tx', r)) :
    e' = e ∨ ∃ (cfg : Config α σ) (dest : String),
      e.triggers.lookup trigger = some cfg ∧
      cfg.lookup "dest" = some (GoVal.str dest) ∧ e' = e.SetState dest := by
  unfold StateMachine.Do at h
  cases hlk : e.triggers.lookup trigger with
  | none =>
      rw [hlk] at h
      simp only [Option.some.injEq, Prod.mk.injEq] at h
      exact Or.inl h.1.symm
  | some cfg =>
      rw [hlk] at h
      dsimp only at h
      cases hsrc : assertString (cfg.lookup "source") with
      | none => rw [hsrc] at h; exact Option.noConfusion h
      | some source =>
      rw [hsrc] at h
      dsimp only at h
      cases hdst : assertString (cfg.lookup "dest") with
      | none => rw [hdst] at h; exact Option.noConfusion h
      | some dest =>
      rw [hdst] at h
      dsimp only at h
      cases hcan : (splitComma source).contains e.GetState with
      | false =>
          simp only [hcan, Bool.not_false, if_pos] at h
          simp only [Option.some.injEq, Prod.mk.injEq] at h
          exact Or.inl h.1.symm
      | true =>
      simp only [hcan, Bool.not_true, Bool.false_eq_true, if_false] at h
      cases hcond : evalCondition (cfg.lookup "condition") tx args with
      | none => rw [hcond] at h; exact Option.noConfusion h
      | some b =>
      rw [hcond] at h
      cases b with
      | false =>
          dsimp only at h
          simp only [Option.some.injEq, Prod.mk.injEq] at h
          exact Or.inl h.1.symm
      | true =>
      dsimp only at h
      cases hbef : runHook (cfg.lookup "before") tx args with
      | none => rw [hbef] at h; exact Option.noConfusion h
      | some p =>
      rw [hbef] at h
      obtain ⟨tx1, berr⟩ := p
      cases berr with
      | some err =>
          dsimp only at h
          simp only [Option.some.injEq, Prod.mk.injEq] at h
          exact Or.inl h.1.symm
      | none =>
      dsimp only at h
      cases hupd : updateStateField tx1 dest with
      | mk tx2 uerr =>
      rw [hupd] at h
      cases uerr with
      | some err =>
          dsimp only at h
          simp only [Option.some.injEq, Prod.mk.injEq] at h
          exact Or.inr ⟨cfg, dest, rfl, assertString_eq_some hdst, h.1.symm⟩
      | none =>
      dsimp only at h
      cases haft : runHook (cfg.lookup "after") tx2 args with
      | none => rw [haft] at h; exact Option.noConfusion h
      | some q =>
      rw [haft] at h
      obtain ⟨tx3, aerr⟩ := q
      cases aerr with
      | some err =>
          dsimp only at h
          simp only [Option.some.injEq, Prod.mk.injEq] at h
          exact Or.inr ⟨cfg, dest, rfl, assertString_eq_some hdst, h.1.symm⟩
      | none =>
      dsimp only at h
      cases hlog : StateMachine.log (e.SetState dest) tx3 trigger
          ((splitComma source).getLastD "") dest uid with
      | none => rw [hlog] at h; exact Option.noConfusion h
      | some pr =>
          rw [hlog] at h
          dsimp only at h
          simp only [Option.some.injEq, Prod.mk.injEq] at h
          exact Or.inr ⟨cfg, dest, rfl, assertString_eq_some hdst, h.1.symm⟩

/-- Under the well-typedness precondition (and an `ID` field on the
entity), `Do` never reaches a panicking branch. -/
theorem do_no_panic {α σ : Type} (e : Stater α σ) (tx : DB α)
    (trigger : String) (uid : Nat) (args : List σ)
    (hid : e.id.isSome = true)
    (hwt : ∀ (t : String) (cfg : Config α σ),
      e.triggers.lookup t = some cfg → WellTypedConfig cfg) :
    (StateMachine.Do e tx trigger uid args).isSome = true := by
  unfold StateMachine.Do
  cases hlk : e.triggers.lookup trigger with
  | none => rfl
  | some cfg =>
      obtain ⟨⟨s, hs⟩, ⟨d, hd⟩, hc, hb, ha⟩ := hwt trigger cfg hlk
      dsimp only
      rw [hs, hd]
      dsimp only [assertString]
      cases hcan : (splitComma s).contains e.GetState with
      | false => simp only [hcan, Bool.not_false, if_pos, Option.isSome_some]
      | true =>
      simp only [hcan, Bool.not_true, Bool.false_eq_true, if_false]
      have hcval : ∃ b, evalCondition (cfg.lookup "condition") tx args = some b := by
        cases hcv : cfg.lookup "condition" with
        | none => exact ⟨true, rfl⟩
        | some v =>
            obtain ⟨g, rfl⟩ := hc v hcv
            exact ⟨g tx args, rfl⟩
      obtain ⟨b, hcval⟩ := hcval
      rw [hcval]
      cases b with
      | false => rfl
      | true =>
      dsimp only
      have hbval : ∃ p, runHook (cfg.lookup "before") tx args = some p := by
        cases hbv : cfg.lookup "before" with
        | none => exact ⟨(tx, none), rfl⟩
        | some v =>
            obtain ⟨f, rfl⟩ := hb v hbv
            exact ⟨f tx args, rfl⟩
      obtain ⟨⟨tx1, berr⟩, hbval⟩ := hbval
      rw [hbval]
      cases berr with
      | some err => rfl
      | none =>
      dsimp only
      cases hupd : updateStateField tx1 d with
      | mk tx2 uerr =>
      cases uerr with
      | some err => rfl
      | none =>
      dsimp only
      have haval : ∃ q, runHook (cfg.lookup "after") tx2 args = some q := by
        cases hav : cfg.lookup "after" with
        | none => exact ⟨(tx2, none), rfl⟩
        | some v =>
            obtain ⟨f, rfl⟩ := ha v hav
            exact ⟨f tx2 args, rfl⟩
      obtain ⟨⟨tx3, aerr⟩, haval⟩ := haval
      rw [haval]
      cases aerr with
      | some err => rfl
      | none =>
      dsimp only
      unfold StateMachine.log
      dsimp only [Stater.SetState]
      cases hoid : e.id with
      | none => rw [hoid] at hid; exact absurd hid (by simp)
      | some oid =>
          cases hins : tx3.insertError with
          | none => rfl
          | some err => rfl

/-- `availableTriggersAux` on a table whose `source` entries are all
strings returns, entry by entry in iteration order, one
`AvailableTrigger` per occurrence of the current state in the
comma-split source list. -/
theorem availableTriggersAux_characterization {α σ : Type}
    (structName state : String) (tr : String → String)
    (l : List (String × Config α σ))
    (hwt : ∀ p ∈ l, ∃ s, p.2.lookup "source" = some (GoVal.str s)) :
    StateMachine.availableTriggersAux structName state tr l =
      some (l.flatMap (fun p =>
        ((splitComma (configSource p.2)).filter (fun src => src == state)).map
          (fun _ => ⟨tr (structName ++ ":" ++ p.1), p.1⟩))) := by
  induction l with
  | nil => rfl
  | cons hd tl ih =>
      obtain ⟨t, cfg⟩ := hd
      obtain ⟨s, hs⟩ := hwt (t, cfg) (List.mem_cons_self _ _)
      have ih2 := ih (fun p hp => hwt p (List.mem_cons_of_mem _ hp))
      unfold StateMachine.availableTriggersAux
      rw [hs]
      dsimp only [assertString]
      rw [ih2]
      dsimp only
      rw [List.flatMap_cons]
      rw [show configSource (α := α) (σ := σ) cfg = s from by
        simp [configSource, hs]]

/-! The claim theorems. -/

/-- C1: evaluation of the code at the failing input. On `orderC1`
(state `"A"`, trigger `go` with sources `"A,B"` and dest `"C"`),
`Do(go, actor 7)` succeeds, the state becomes `"C"` and exactly one
audit record is appended with the claimed dest, trigger, actor and
object columns — but its source column holds `"B"`, the last piece of
the comma-split source list (the scan loop never stops at the matching
piece), not the entity's pre-transition state `"A"`, contradicting the
claim that the audit record's sourceState equals the pre-transition
state. -/
theorem do_success_logs_last_source_piece :
    ((StateMachine.Do orderC1 dbC1 "go" 7 []).map
      (fun r => (r.1.state, r.2.1.auditLog, r.2.2)))
      = some ("C", [⟨1, "Order", "go", "B", "C", 7⟩], none)
    ∧ orderC1.state = "A" ∧ ("B" : String) ≠ "A" :=
  ⟨rfl, rfl, by decide⟩

/-- C2 (counterexample): the claim fails on the code in two ways. A
trigger whose source list repeats the current state (`"A,A"`) is
returned twice, not once per trigger; and the output order follows the
Go map's iteration order — `twoTrigA` and `twoTrigB` are the same
trigger map (equal lookups, same state) presented in the two possible
iteration orders, yet `AvailableTriggers` returns different lists, so
the order is not deterministic. -/
theorem availableTriggers_claim_cex :
    ((StateMachine.AvailableTriggers id dupTrig).map
      (List.map (fun t => t.trigger))) = some ["t1", "t1"]
    ∧ twoTrigA.state = twoTrigB.state
    ∧ twoTrigA.triggers.lookup "t1" = twoTrigB.triggers.lookup "t1"
    ∧ twoTrigA.triggers.lookup "t2" = twoTrigB.triggers.lookup "t2"
    ∧ ((StateMachine.AvailableTriggers id twoTrigA).map
        (List.map (fun t => t.trigger))) = some ["t1", "t2"]
    ∧ ((StateMachine.AvailableTriggers id twoTrigB).map
        (List.map (fun t => t.trigger))) = some ["t2", "t1"]
    ∧ StateMachine.AvailableTriggers id twoTrigA ≠
        StateMachine.AvailableTriggers id twoTrigB :=
  ⟨rfl, rfl, rfl, rfl, rfl, rfl, by decide⟩

/-- C2 (amended): when every declared trigger's `source` entry is a
string, `AvailableTriggers` returns exactly one entry per occurrence of
the current state in each trigger's comma-split source list, paired
with the translated label for key `"<structName>:<triggerName>"`, in
the trigger-table iteration order (which the Go map leaves
unspecified). -/
theorem availableTriggers_exact {α σ : Type} (tr : String → String)
    (e : Stater α σ)
    (hwt : ∀ p ∈ e.triggers, ∃ s, p.2.lookup "source" = some (GoVal.str s)) :
    StateMachine.AvailableTriggers tr e =
      some (e.triggers.flatMap (fun p =>
        ((splitComma (configSource p.2)).filter (fun src => src == e.state)).map
          (fun _ => ⟨tr (e.structName ++ ":" ++ p.1), p.1⟩))) := by
  unfold StateMachine.AvailableTriggers
  dsimp only [Stater.GetState]
  exact availableTriggersAux_characterization e.structName e.state tr e.triggers hwt

/-- C2 (witness): the amended theorem evaluated on `twoTrigA`. -/
theorem availableTriggers_exact_witness :
    StateMachine.AvailableTriggers id twoTrigA =
      some [⟨"T:t1", "t1"⟩, ⟨"T:t2", "t2"⟩] := by
  have h := availableTriggers_exact id twoTrigA (by
    intro p hp
    have hp2 : p ∈ ([("t1", cfgPlain), ("t2", cfgPlain)] :
        List (String × Config Unit Unit)) := hp
    simp only [List.mem_cons, List.not_mem_nil, or_false] at hp2
    rcases hp2 with rfl | rfl
    · exact ⟨"A", rfl⟩
    · exact ⟨"A", rfl⟩)
  rw [h]
  rfl

/-- C3: when the trigger is declared, the current state is among its
sources, and the guard returns false, `Do` returns nil with the entity
and the handle exactly as they were: no state mutation, no audit
record, and — since the result does not depend on the table's `before`
and `after` entries at all — no hook invocation. -/
theorem do_guard_false {α σ : Type} (e : Stater α σ) (tx : DB α)
    (trigger : String) (uid : Nat) (args : List σ) (cfg : Config α σ)
    (source dest : String) (g : DB α → List σ → Bool)
    (hlk : e.triggers.lookup trigger = some cfg)
    (hsrc : cfg.lookup "source" = some (GoVal.str source))
    (hdst : cfg.lookup "dest" = some (GoVal.str dest))
    (hcan : (splitComma source).contains e.state = true)
    (hcond : cfg.lookup "condition" = some (GoVal.guardFn g))
    (hg : g tx args = false) :
    StateMachine.Do e tx trigger uid args = some (e, tx, none) := by
  simp only [StateMachine.Do, hlk, hsrc, hdst, assertString, Stater.GetState,
    hcan, Bool.not_true, Bool.false_eq_true, if_false, hcond, evalCondition, hg]

/-- C3 (witness): guard rejection on `guardFalseEnt`, whose before-hook
would fail if it were invoked. -/
theorem do_guard_false_witness :
    StateMachine.Do guardFalseEnt dbPlain "go" 4 [] =
      some (guardFalseEnt, dbPlain, none) :=
  do_guard_false guardFalseEnt dbPlain "go" 4 [] cfgGuardFalse "A" "B"
    (fun _ _ => false) rfl rfl rfl rfl rfl rfl

/-- C4 (counterexample): the returned error does not identify the after
phase. An after-hook failure (`afterBoomEnt`) and a before-hook failure
(`beforeBoomEnt`) with the same hook error `"boom"` make `Do` return
the identical error value; only the entity states differ (`"B"` after
the persisted transition vs the unchanged `"A"`). -/
theorem do_after_error_untagged_cex :
    ((StateMachine.Do afterBoomEnt dbPlain "go" 0 []).map (fun r => r.2.2))
      = some (some "boom")
    ∧ ((StateMachine.Do beforeBoomEnt dbPlain "go" 0 []).map (fun r => r.2.2))
      = some (some "boom")
    ∧ ((StateMachine.Do afterBoomEnt dbPlain "go" 0 []).map (fun r => r.1.state))
      = some "B"
    ∧ ((StateMachine.Do beforeBoomEnt dbPlain "go" 0 []).map (fun r => r.1.state))
      = some "A" :=
  ⟨rfl, rfl, rfl, rfl⟩

/-- C4 (amended): when the after-hook fails, `Do` returns the hook's
error unchanged (not tagged with a phase), the entity's in-memory state
already equals `dest`, the state column seen by the hook was already
persisted to `dest`, and the final handle is exactly the hook's output —
the engine appends no audit record after it. -/
theorem do_after_hook_error {α σ : Type} (e : Stater α σ) (tx : DB α)
    (trigger : String) (uid : Nat) (args : List σ) (cfg : Config α σ)
    (source dest : String) (f : DB α → List σ → DB α × Option String)
    (tx1 tx2 tx3 : DB α) (err : String)
    (hlk : e.triggers.lookup trigger = some cfg)
    (hsrc : cfg.lookup "source" = some (GoVal.str source))
    (hdst : cfg.lookup "dest" = some (GoVal.str dest))
    (hcan : (splitComma source).contains e.state = true)
    (hcond : evalCondition (cfg.lookup "condition") tx args = some true)
    (hbef : runHook (cfg.lookup "before") tx args = some (tx1, none))
    (htx2 : updateStateField tx1 dest = (tx2, none))
    (haft : cfg.lookup "after" = some (GoVal.hookFn f))
    (hf : f tx2 args = (tx3, some err)) :
    StateMachine.Do e tx trigger uid args =
      some (e.SetState dest, tx3, some err)
    ∧ (e.SetState dest).state = dest
    ∧ tx2.row.state = dest := by
  have hstate : tx2.row.state = dest := by
    cases hup : tx1.updateError with
    | none =>
        simp only [updateStateField, hup, Prod.mk.injEq] at htx2
        rw [← htx2.1]
    | some er =>
        simp only [updateStateField, hup, Prod.mk.injEq] at htx2
        exact absurd htx2.2 (Option.some_ne_none er)
  refine ⟨?_, rfl, hstate⟩
  simp only [StateMachine.Do, hlk, hsrc, hdst, assertString, Stater.GetState,
    hcan, Bool.not_true, Bool.false_eq_true, if_false, hcond]
  rw [hbef]
  dsimp only
  rw [htx2]
  dsimp only
  rw [haft]
  dsimp only [runHook]
  rw [hf]

/-- C4 (witness): the amended theorem on `afterBoomEnt`. -/
theorem do_after_hook_error_witness :
    StateMachine.Do afterBoomEnt dbPlain "go" 5 [] =
      some (afterBoomEnt.SetState "B", dbPlainB, some "boom")
    ∧ (afterBoomEnt.SetState "B").state = "B"
    ∧ dbPlainB.row.state = "B" :=
  do_after_hook_error afterBoomEnt dbPlain "go" 5 [] cfgAfterBoom "A" "B"
    (fun db _ => (db, some "boom")) dbPlain dbPlainB dbPlainB "boom"
    rfl rfl rfl rfl rfl rfl rfl rfl rfl

/-- C5 (counterexample): the returned error is not tagged with the
before phase. A before-hook failure (`beforeOopsEnt`) and an after-hook
failure (`afterOopsEnt`) with the same hook error `"oops"` make `Do`
return the identical error value, so the error alone cannot identify
the phase. -/
theorem do_before_error_untagged_cex :
    ((StateMachine.Do beforeOopsEnt dbPlain "go" 0 []).map (fun r => r.2.2))
      = some (some "oops")
    ∧ ((StateMachine.Do afterOopsEnt dbPlain "go" 0 []).map (fun r => r.2.2))
      = some (some "oops")
    ∧ ((StateMachine.Do beforeOopsEnt dbPlain "go" 0 []).map (fun r => r.1.state))
      = some "A"
    ∧ ((StateMachine.Do afterOopsEnt dbPlain "go" 0 []).map (fun r => r.1.state))
      = some "B" :=
  ⟨rfl, rfl, rfl, rfl⟩

/-- C5 (amended): when the before-hook fails, `Do` returns the hook's
error verbatim (with no phase tag), the entity is unchanged, and the
final handle is exactly the hook's output — the engine neither mutates
the state, nor persists anything, nor appends any audit record. -/
theorem do_before_hook_error {α σ : Type} (e : Stater α σ) (tx : DB α)
    (trigger : String) (uid : Nat) (args : List σ) (cfg : Config α σ)
    (source dest : String) (f : DB α → List σ → DB α × Option String)
    (tx1 : DB α) (err : String)
    (hlk : e.triggers.lookup trigger = some cfg)
    (hsrc : cfg.lookup "source" = some (GoVal.str source))
    (hdst : cfg.lookup "dest" = some (GoVal.str dest))
    (hcan : (splitComma source).contains e.state = true)
    (hcond : evalCondition (cfg.lookup "condition") tx args = some true)
    (hbef : cfg.lookup "before" = some (GoVal.hookFn f))
    (hf : f tx args = (tx1, some err)) :
    StateMachine.Do e tx trigger uid args = some (e, tx1, some err) := by
  simp only [StateMachine.Do, hlk, hsrc, hdst, assertString, Stater.GetState,
    hcan, Bool.not_true, Bool.false_eq_true, if_false, hcond, runHook, hbef, hf]

/-- C5 (witness): the amended theorem on `beforeOopsEnt`. -/
theorem do_before_hook_error_witness :
    StateMachine.Do beforeOopsEnt dbPlain "go" 2 [] =
      some (beforeOopsEnt, dbPlain, some "oops") :=
  do_before_hook_error beforeOopsEnt dbPlain "go" 2 [] cfgBeforeOops "A" "B"
    (fun db _ => (db, some "oops")) dbPlain "oops" rfl rfl rfl rfl rfl rfl rfl

/-- C6: the persistence step writes only the state column — on success
`updateStateField` returns the handle with just `row.state` replaced,
leaving `row.other` (every other column/association), the audit table
and the handle's error configuration untouched; on failure it returns
the handle unchanged with the handle's error; and inside `Do`, a
persistence failure is propagated as the returned error while the
in-memory state already equals `dest` (not rolled back) and the final
handle is exactly the pre-update one — no audit record appended. -/
theorem do_persistence_frame_and_failure {α σ : Type} :
    (∀ (tx : DB α) (dest : String), tx.updateError = none →
      updateStateField tx dest =
        ({ tx with row := { tx.row with state := dest } }, none))
    ∧ (∀ (tx : DB α) (dest err : String), tx.updateError = some err →
      updateStateField tx dest = (tx, some err))
    ∧ (∀ (e : Stater α σ) (tx : DB α) (trigger : String) (uid : Nat)
        (args : List σ) (cfg : Config α σ) (source dest : String)
        (tx1 : DB α) (err : String),
      e.triggers.lookup trigger = some cfg →
      cfg.lookup "source" = some (GoVal.str source) →
      cfg.lookup "dest" = some (GoVal.str dest) →
      (splitComma source).contains e.state = true →
      evalCondition (cfg.lookup "condition") tx args = some true →
      runHook (cfg.lookup "before") tx args = some (tx1, none) →
      tx1.updateError = some err →
      StateMachine.Do e tx trigger uid args =
        some (e.SetState dest, tx1, some err)) := by
  refine ⟨?_, ?_, ?_⟩
  · intro tx dest h
    simp only [updateStateField, h]
  · intro tx dest err h
    simp only [updateStateField, h]
  · intro e tx trigger uid args cfg source dest tx1 err hlk hsrc hdst hcan
      hcond hbef hupd
    simp only [StateMachine.Do, hlk, hsrc, hdst, assertString, Stater.GetState,
      hcan, Bool.not_true, Bool.false_eq_true, if_false, hcond, hbef,
      updateStateField, hupd]

/-- C6 (witness): the persistence-failure branch of the theorem
evaluated on `plainEnt` with a handle whose update fails. -/
theorem do_persistence_frame_and_failure_witness :
    StateMachine.Do plainEnt dbUpdFail "go" 1 [] =
      some (plainEnt.SetState "B", dbUpdFail, some "db update failed") :=
  (do_persistence_frame_and_failure (α := Unit) (σ := Unit)).2.2 plainEnt
    dbUpdFail "go" 1 [] cfgPlain "A" "B" dbUpdFail "db update failed"
    rfl rfl rfl rfl rfl rfl rfl

/-- C7: `Do` only ever writes `dest` strings drawn from the entity's
own trigger definitions, so when the current state is among the
declared valid states and every declared `dest` is too, any
non-panicking `Do` call returns an entity whose state is still a member
of the (unchanged) valid-state list. -/
theorem do_preserves_valid_states {α σ : Type} (e : Stater α σ)
    (h0 : e.state ∈ e.states)
    (hdest : ∀ (t : String) (cfg : Config α σ) (d : String),
      e.triggers.lookup t = some cfg →
      cfg.lookup "dest" = some (GoVal.str d) → d ∈ e.states) :
    ∀ (tx : DB α) (trigger : String) (uid : Nat) (args : List σ)
      (e' : Stater α σ) (tx' : DB α) (r : Option String),
      StateMachine.Do e tx trigger uid args = some (e', tx', r) →
      e'.states = e.states ∧ e'.state ∈ e.states := by
  intro tx trigger uid args e' tx' r h
  rcases do_result_entity e tx trigger uid args e' tx' r h with
    rfl | ⟨cfg, d, hlk, hd, rfl⟩
  · exact ⟨rfl, h0⟩
  · exact ⟨rfl, hdest trigger cfg d hlk hd⟩

/-- C7 (witness): the theorem evaluated on the successful `go`
transition of `orderC1`. -/
theorem do_preserves_valid_states_witness :
    (orderC1.SetState "C").states = orderC1.states ∧
    (orderC1.SetState "C").state ∈ orderC1.states := by
  refine do_preserves_valid_states orderC1 (by decide) ?hdest dbC1 "go" 7 []
    (orderC1.SetState "C") dbC1done none ?hdo
  case hdest =>
    intro t cfg d h1 h2
    have hc := lookup_singleton_eq h1
    subst hc
    rw [show List.lookup "dest" cfgGoC1 = some (GoVal.str "C") from rfl] at h2
    simp only [Option.some.injEq, GoVal.str.injEq] at h2
    subst h2
    decide
  case hdo => rfl

/-- C8: a trigger name that is not a key of the entity's trigger table
makes `Do` return the unknown-trigger error with the entity and the
handle (state, audit table, everything) exactly as they were; no entry
of the table is consulted, so no guard or hook can run and nothing is
persisted. -/
theorem do_unknown_trigger {α σ : Type} (e : Stater α σ) (tx : DB α)
    (trigger : String) (uid : Nat) (args : List σ)
    (h : e.triggers.lookup trigger = none) :
    StateMachine.Do e tx trigger uid args =
      some (e, tx, some ("can not do trigger: " ++ trigger)) := by
  simp only [StateMachine.Do, h]

/-- C8 (witness): the theorem evaluated on `orderC1` with the
undeclared trigger `"nope"`. -/
theorem do_unknown_trigger_witness :
    StateMachine.Do orderC1 dbC1 "nope" 3 [] =
      some (orderC1, dbC1, some ("can not do trigger: " ++ "nope")) :=
  do_unknown_trigger orderC1 dbC1 "nope" 3 [] rfl

/-- C9: a declared trigger (with string source and dest entries) whose
comma-split source list does not contain the current state makes `Do`
return the invalid-transition error naming the trigger and the current
state, with the entity and the handle exactly as they were — the
conclusion does not depend on the guard or hook entries, so none of
them runs and nothing is persisted. -/
theorem do_invalid_transition {α σ : Type} (e : Stater α σ) (tx : DB α)
    (trigger : String) (uid : Nat) (args : List σ) (cfg : Config α σ)
    (source dest : String)
    (hlk : e.triggers.lookup trigger = some cfg)
    (hsrc : cfg.lookup "source" = some (GoVal.str source))
    (hdst : cfg.lookup "dest" = some (GoVal.str dest))
    (hcan : (splitComma source).contains e.state = false) :
    StateMachine.Do e tx trigger uid args =
      some (e, tx, some ("can not do trigger: " ++ trigger ++
        ", current state: " ++ e.state)) := by
  simp only [StateMachine.Do, hlk, hsrc, hdst, assertString, Stater.GetState,
    hcan, Bool.not_false, if_pos]

/-- C9 (witness): the theorem evaluated on `orderAtZ`, whose state
`"Z"` is outside the `go` trigger's sources `"A,B"`. -/
theorem do_invalid_transition_witness :
    StateMachine.Do orderAtZ dbC1 "go" 3 [] =
      some (orderAtZ, dbC1, some ("can not do trigger: " ++ "go" ++
        ", current state: " ++ orderAtZ.state)) :=
  do_invalid_transition orderAtZ dbC1 "go" 3 [] cfgGoC1 "A,B" "C"
    rfl rfl rfl rfl

/-- C10: under the well-typedness precondition on every declared
trigger configuration and an unsigned-integer `ID` field on the entity,
`Do` never panics (every runtime type assertion succeeds and the audit
step can read the id); and the precondition is needed — on a trigger
whose `source` entry is an int the source assertion panics, and on a
well-typed entity without an `ID` field the audit step panics. -/
theorem do_total_under_well_typing :
    (∀ (α σ : Type) (e : Stater α σ) (tx : DB α) (trigger : String)
        (uid : Nat) (args : List σ),
      e.id.isSome = true →
      (∀ (t : String) (cfg : Config α σ),
        e.triggers.lookup t = some cfg → WellTypedConfig cfg) →
      (StateMachine.Do e tx trigger uid args).isSome = true)
    ∧ StateMachine.Do illTypedEnt dbPlain "go" 0 [] = none
    ∧ StateMachine.Do noIdEnt dbPlain "go" 0 [] = none :=
  ⟨fun _ _ e tx trigger uid args hid hwt =>
    do_no_panic e tx trigger uid args hid hwt, rfl, rfl⟩

/-- C10 (witness): the totality part of the theorem evaluated on
`orderC1`, whose single trigger configuration is well typed. -/
theorem do_total_under_well_typing_witness :
    (StateMachine.Do orderC1 dbC1 "go" 7 ([] : List Unit)).isSome = true := by
  refine do_total_under_well_typing.1 Unit Unit orderC1 dbC1 "go" 7 [] rfl ?_
  intro t cfg h
  have hc := lookup_singleton_eq h
  subst hc
  refine ⟨⟨"A,B", rfl⟩, ⟨"C", rfl⟩, ?_, ?_, ?_⟩
  · intro v hv
    rw [show List.lookup "condition" cfgGoC1 = none from rfl] at hv
    exact Option.noConfusion hv
  · intro v hv
    rw [show List.lookup "before" cfgGoC1 = none from rfl] at hv
    exact Option.noConfusion hv
  · intro v hv
    rw [show List.lookup "after" cfgGoC1 = none from rfl] at hv
    exact Option.noConfusion hv
